import Mathlib

set_option linter.all false

/-!
Shallow embedding of the `terraform-provider-legocharm` repository: the
`legocharmclient` HTTP client and the two Terraform reconcilers
(`UserResource`, `UserDomainAccessResource`).

Each HTTP exchange the Go code performs is modelled by an oracle
parameter (`HttpOutcome`) recording the transport outcome, the response
status and the JSON-decode shape of the response body.  Every modelled
operation returns its result together with the ordered list of remote
calls it actually issued, so that "no remote call is made" is provable.
Terraform `types.String` / `types.Int64` values are modelled as
`Option String` / `Option Int` (`none` = null).
-/

namespace Legocharm

/-- `strings.TrimRight(s, "/")`: remove every trailing slash character. -/
def trimRightSlash (s : String) : String :=
  ⟨(s.data.reverse.dropWhile (fun c => c = '/')).reverse⟩

/-- `strings.TrimLeft(s, "/")`: remove every leading slash character. -/
def trimLeftSlash (s : String) : String :=
  ⟨s.data.dropWhile (fun c => c = '/')⟩

/-- `strings.Split(s, sep)` for a single-character separator: the list of
(possibly empty) chunks between occurrences of `sep`; splitting the empty
string gives one empty chunk, as in Go. -/
def splitOnChar (sep : Char) : List Char → List (List Char)
  | [] => [[]]
  | c :: rest =>
    match splitOnChar sep rest with
    | [] => [[c]]
    | h :: t => if c = sep then [] :: h :: t else (c :: h) :: t

/-- `strings.Split(s, sep)` on strings, single-character separator. -/
def splitString (s : String) (sep : Char) : List String :=
  (splitOnChar sep s.data).map (fun l => ⟨l⟩)

/-- `strings.TrimSuffix(s, "/")`: drop one trailing `/` if present. -/
def trimSuffixSlash (s : String) : String :=
  if s.data.getLast? = some '/' then ⟨s.data.dropLast⟩ else s

/-- `LastPathSegment` (client.go): drop one trailing `/` if present, split on
`/`, and return the last part (`""` for the unreachable empty-split case). -/
def LastPathSegment (u : String) : String :=
  (((splitString (trimSuffixSlash u) '/').getLast?).getD "")

/-- `types.String.ValueString()` / `types.Int64.ValueInt64()`: the zero value
for a null attribute. -/
def valueString (s : Option String) : String := s.getD ""

/-- `types.Int64.ValueInt64()` on an `Option Int` model: 0 when null. -/
def valueInt (n : Option Int) : Int := n.getD 0

/-- Outcome of `url.Parse` as far as `NewClient` inspects it:
absolute (non-empty scheme), relative (no scheme), or a parse failure. -/
inductive UrlParse where
  | absolute
  | relative
  | failed
deriving DecidableEq, Repr

/-- Scheme scan of Go's `url.Parse`/`getScheme`: a scheme is a letter followed
by letters, digits, `+`, `-` or `.`, terminated by `:`.  A leading `:` is a
parse failure ("missing protocol scheme"); any other non-scheme character
before a `:` means the URL is relative.  (Parse failures other than a missing
scheme are not exercised by the code paths modelled here.)  -/
def schemeScan : List Char → Bool → UrlParse
  | [], _ => .relative
  | ch :: rest, isFirst =>
    if ch = ':' then (if isFirst then .failed else .absolute)
    else if ch.isAlpha then schemeScan rest false
    else if (ch.isDigit || ch = '+' || ch = '-' || ch = '.') && !isFirst then
      schemeScan rest false
    else .relative

/-- `url.Parse(u)` combined with `parsed.IsAbs()`, as used by `NewClient`. -/
def parseAbs (s : String) : UrlParse := schemeScan s.data true

/-- The `LEGOCHARM_API_TIMEOUT` environment variable, with the outcome of
`time.ParseDuration` / `strconv.Atoi` abstracted: unset, set to a value that
one of the two parsers accepts, or set to a value neither accepts. -/
inductive TimeoutEnv where
  | unset
  | valid
  | malformed (v : String)
deriving DecidableEq, Repr

/-- `Client` (client.go).  The embedded `http.Client` (timeout) carries no
behaviour relevant to any claim and is omitted. -/
structure Client where
  BaseURL : String
  Username : String
  Password : String
deriving DecidableEq, Repr

/-- `NewClient` (client.go): validates the pointer arguments, defaults the
scheme to `https`, parses `LEGOCHARM_API_TIMEOUT`, and stores the base URL
with trailing slashes removed. -/
def NewClient (address username password : Option String) (env : TimeoutEnv) :
    Except String Client :=
  match address with
  | none => .error "address is required"
  | some a =>
    if a = "" then .error "address is required" else
    match username with
    | none => .error "username is required"
    | some un =>
      if un = "" then .error "username is required" else
      match password with
      | none => .error "password is required"
      | some pw =>
        if pw = "" then .error "password is required" else
        let withScheme : Except String String :=
          match parseAbs a with
          | .absolute => .ok a
          | _ =>
            if !(a.startsWith "http://" || a.startsWith "https://") then
              let a2 := "https://" ++ a
              match parseAbs a2 with
              | .absolute => .ok a2
              | _ => .error ("invalid address " ++ a)
            else .error ("invalid address " ++ a)
        match withScheme with
        | .error e => .error e
        | .ok u =>
          match env with
          | .malformed v => .error ("invalid LEGOCHARM_API_TIMEOUT " ++ v)
          | _ => .ok { BaseURL := trimRightSlash u, Username := un, Password := pw }

/-- The `Authorization` header as set by `req.SetBasicAuth(user, pass)`. -/
inductive AuthHeader where
  | basic (user pass : String)
deriving DecidableEq, Repr

/-- The observable parts of the `*http.Request` built by `Client.NewRequest`:
method, full URL and the headers the code sets. -/
structure Request where
  method : String
  url : String
  userAgent : String
  authorization : AuthHeader
  contentType : Option String
deriving DecidableEq, Repr

/-- `Client.NewRequest` (client.go): joins the base URL and the path with a
single `/` after stripping the path's leading slashes, sets basic auth and the
`User-Agent`, and sets `Content-Type: application/json` when a body is present
(a fresh `http.Request` never has a `Content-Type` already set).  The
`http.NewRequest` error path is not reachable for the URLs this client
builds and is not modelled. -/
def Client.NewRequest (c : Client) (method path : String) (hasBody : Bool) :
    Request :=
  { method := method
    url := c.BaseURL ++ "/" ++ trimLeftSlash path
    userAgent := "terraform-provider-legocharm"
    authorization := .basic c.Username c.Password
    contentType := if hasBody then some "application/json" else none }

/-- Errors produced by the client: the `ErrNotFound` sentinel, a wrapped error
(`fmt.Errorf("...: %w", err)`), or a plain message error. -/
inductive ClientError where
  | notFound
  | wrapped (context : String) (inner : ClientError)
  | message (msg : String)
deriving DecidableEq, Repr

/-- `errors.Is(e, ErrNotFound)`: true for the sentinel itself and for any
chain of `%w` wraps around it. -/
def ClientError.isNotFound : ClientError → Bool
  | .notFound => true
  | .wrapped _ inner => inner.isNotFound
  | .message _ => false

/-- JSON-decode shape of a response body, as the Go helpers probe it:
`readFailure` models an `io.ReadAll` error; otherwise the body decodes as a
JSON array of `α`, as a single `α` object, or as neither. -/
inductive BodyDecode (α : Type) where
  | readFailure (msg : String)
  | jsonList (items : List α)
  | jsonObject (item : α)
  | undecodable (raw : String)
deriving DecidableEq, Repr

/-- Outcome of one HTTP exchange: a transport error from `c.Do`, or a
response with its status code and body shape. -/
inductive HttpOutcome (α : Type) where
  | transportError (msg : String)
  | response (status : Nat) (body : BodyDecode α)
deriving DecidableEq, Repr

/-- `UserData` (client.go): a user as returned from the API. -/
structure UserData where
  username : String
  url : String
  email : String
  groups : List String
deriving DecidableEq, Repr

/-- `UserCreateData` (client.go): payload for creating a user. -/
structure UserCreateData where
  username : String
  password : String
  email : String
  groups : List String
deriving DecidableEq, Repr

/-- `DomainData` (client.go): a domain record (`fqdn`, integer `id`). -/
structure DomainData where
  fqdn : String
  id : Int
deriving DecidableEq, Repr

/-- `DomainUserPermissionCreateData` (client.go): the input to
`CreateDomainAccess` (domain given as an FQDN string). -/
structure DomainUserPermissionCreateData where
  userID : String
  domain : String
  accessLevel : String
deriving DecidableEq, Repr

/-- `DomainUserPermissionCreatePayloadData` (client.go): the JSON payload
actually POSTed (domain given as the integer domain ID). -/
structure DomainUserPermissionCreatePayloadData where
  userID : String
  domain : Int
  accessLevel : String
deriving DecidableEq, Repr

/-- `DomainUserPermissionData` (client.go): a permission as returned from
the API. -/
structure DomainUserPermissionData where
  user : Int
  domain : Int
  accessLevel : String
  id : Int
deriving DecidableEq, Repr

/-- A remote call issued by the client, carrying its semantic arguments
(URL construction and escaping live in `Client.NewRequest`). -/
inductive ClientCall where
  | getUserById (userId : String)
  | getUserByUsername (username : String)
  | createUser (u : UserCreateData)
  | deleteUserById (id : String)
  | probePassword (username password : String)
  | getDomainAccessList (username fqdn : String)
  | getDomain (fqdn : String)
  | createDomain (d : DomainData)
  | postDomainAccess (p : DomainUserPermissionCreatePayloadData)
  | deleteDomainAccess (id : Int)
deriving DecidableEq, Repr

/-- `Client.GetUserById` (client.go): GET the user by ID; 404 is
`ErrNotFound`; the body must decode as a single user object. -/
def Client.GetUserById (userId : String) (fetch : HttpOutcome UserData) :
    Except ClientError UserData × List ClientCall :=
  let calls := [ClientCall.getUserById userId]
  match fetch with
  | .transportError m =>
    (.error (.wrapped "failed to execute request" (.message m)), calls)
  | .response status body =>
    if status = 404 then (.error .notFound, calls) else
    match body with
    | .readFailure m =>
      (.error (.wrapped "failed to read response body" (.message m)), calls)
    | .jsonObject u => (.ok u, calls)
    | .jsonList _ =>
      (.error (.message "failed to parse user response: array body"), calls)
    | .undecodable raw =>
      (.error (.message ("failed to parse user response: " ++ raw)), calls)

/-- `Client.GetUserByUsername` (client.go): GET users filtered by username;
404 is `ErrNotFound`; an empty JSON array is `ErrNotFound`; a non-empty array
yields its first element; a single object is accepted as a fallback; anything
else is a parse error. -/
def Client.GetUserByUsername (username : String)
    (fetch : HttpOutcome UserData) :
    Except ClientError UserData × List ClientCall :=
  let calls := [ClientCall.getUserByUsername username]
  match fetch with
  | .transportError m =>
    (.error (.wrapped "failed to execute request" (.message m)), calls)
  | .response status body =>
    if status = 404 then (.error .notFound, calls) else
    match body with
    | .readFailure m =>
      (.error (.wrapped "failed to read response body" (.message m)), calls)
    | .jsonList [] => (.error .notFound, calls)
    | .jsonList (u :: _) => (.ok u, calls)
    | .jsonObject u => (.ok u, calls)
    | .undecodable raw =>
      (.error (.message ("failed to parse user response: " ++ raw)), calls)

/-- `Client.CreateUser` (client.go): POST the user; read the body, then
reject non-2xx/3xx statuses, then decode a single user object. -/
def Client.CreateUser (user : UserCreateData) (fetch : HttpOutcome UserData) :
    Except ClientError UserData × List ClientCall :=
  let calls := [ClientCall.createUser user]
  match fetch with
  | .transportError m =>
    (.error (.wrapped "failed to execute request" (.message m)), calls)
  | .response status body =>
    match body with
    | .readFailure m =>
      (.error (.wrapped "failed to read response body" (.message m)), calls)
    | b =>
      if status < 200 || 400 ≤ status then
        (.error (.message ("failed to create user: status " ++ toString status)),
         calls)
      else
        match b with
        | .jsonObject u => (.ok u, calls)
        | .jsonList _ =>
          (.error (.message "failed to parse user response: array body"), calls)
        | .undecodable raw =>
          (.error (.message ("failed to parse user response: " ++ raw)), calls)
        | .readFailure m =>
          (.error (.wrapped "failed to read response body" (.message m)), calls)

/-- `Client.DeleteUserById` (client.go): DELETE the user; the HTTP response
(its status) is returned as-is, only transport errors are errors. -/
def Client.DeleteUserById (id : String) (fetch : HttpOutcome Unit) :
    Except ClientError Nat × List ClientCall :=
  let calls := [ClientCall.deleteUserById id]
  match fetch with
  | .transportError m =>
    (.error (.wrapped "failed to execute request" (.message m)), calls)
  | .response status _ => (.ok status, calls)

/-- `Client.HasValidUserPassword` (client.go): build a fresh client with the
probed credentials (which fails for empty values), GET the users endpoint with
them, and map 401 to `(false, nil)`, 403 to `(true, nil)` and every other
status to an error. -/
def Client.HasValidUserPassword (c : Client) (username password : String)
    (env : TimeoutEnv) (fetch : HttpOutcome Unit) :
    Except ClientError Bool × List ClientCall :=
  match NewClient (some c.BaseURL) (some username) (some password) env with
  | .error e => (.error (.wrapped "failed to create client" (.message e)), [])
  | .ok _ =>
    let calls := [ClientCall.probePassword username password]
    match fetch with
    | .transportError m =>
      (.error (.wrapped "failed to execute request" (.message m)), calls)
    | .response status _ =>
      if status = 401 then (.ok false, calls)
      else if status = 403 then (.ok true, calls)
      else
        (.error (.message ("unexpected status code: " ++ toString status)), calls)

/-- `Client.GetDomain` (client.go): GET domains filtered by FQDN; 404 is
`ErrNotFound`; an empty JSON array is `ErrNotFound`; a non-empty array yields
its first element; a single object is accepted; anything else is a parse
error. -/
def Client.GetDomain (fqdn : String) (fetch : HttpOutcome DomainData) :
    Except ClientError DomainData × List ClientCall :=
  let calls := [ClientCall.getDomain fqdn]
  match fetch with
  | .transportError m =>
    (.error (.wrapped "failed to execute request" (.message m)), calls)
  | .response status body =>
    if status = 404 then (.error .notFound, calls) else
    match body with
    | .readFailure m =>
      (.error (.wrapped "failed to read response body" (.message m)), calls)
    | .jsonList [] => (.error .notFound, calls)
    | .jsonList (d :: _) => (.ok d, calls)
    | .jsonObject d => (.ok d, calls)
    | .undecodable raw =>
      (.error (.message ("failed to parse domain response: " ++ raw)), calls)

/-- `Client.GetDomainAccess` (client.go): resolve the user ID to a username
via `GetUserById` (wrapping its error), then GET the permissions filtered by
username and FQDN with the same 404 / empty-array / fallback decoding as the
other list lookups. -/
def Client.GetDomainAccess (userId domain : String)
    (userFetch : HttpOutcome UserData)
    (permFetch : HttpOutcome DomainUserPermissionData) :
    Except ClientError DomainUserPermissionData × List ClientCall :=
  match Client.GetUserById userId userFetch with
  | (.error e, userCalls) =>
    (.error (.wrapped "failed to get user data" e), userCalls)
  | (.ok user, userCalls) =>
    let calls := userCalls ++ [ClientCall.getDomainAccessList user.username domain]
    match permFetch with
    | .transportError m =>
      (.error (.wrapped "failed to execute request" (.message m)), calls)
    | .response status body =>
      if status = 404 then (.error .notFound, calls) else
      match body with
      | .readFailure m =>
        (.error (.wrapped "failed to read response body" (.message m)), calls)
      | .jsonList [] => (.error .notFound, calls)
      | .jsonList (p :: _) => (.ok p, calls)
      | .jsonObject p => (.ok p, calls)
      | .undecodable raw =>
        (.error (.message ("failed to parse domain access response: " ++ raw)),
         calls)

/-- `Client.CreateDomain` (client.go): POST the domain; read the body, then
reject non-2xx/3xx statuses, then decode a single domain object. -/
def Client.CreateDomain (domain : DomainData) (fetch : HttpOutcome DomainData) :
    Except ClientError DomainData × List ClientCall :=
  let calls := [ClientCall.createDomain domain]
  match fetch with
  | .transportError m =>
    (.error (.wrapped "failed to execute request" (.message m)), calls)
  | .response status body =>
    match body with
    | .readFailure m =>
      (.error (.wrapped "failed to read response body" (.message m)), calls)
    | b =>
      if status < 200 || 400 ≤ status then
        (.error (.message ("failed to create domain: status " ++ toString status)),
         calls)
      else
        match b with
        | .jsonObject d => (.ok d, calls)
        | .jsonList _ =>
          (.error (.message "failed to parse domain response: array body"), calls)
        | .undecodable raw =>
          (.error (.message ("failed to parse domain response: " ++ raw)), calls)
        | .readFailure m =>
          (.error (.wrapped "failed to read response body" (.message m)), calls)

/-- `Client.CreateDomainAccess` (client.go): look the domain up by FQDN; a
non-`ErrNotFound` lookup error aborts; on `ErrNotFound` the domain is created
(`DomainData{Fqdn: access.Domain}`, zero ID); the permission payload is then
POSTed with its `domain` field set to the ID of the found or created
domain. -/
def Client.CreateDomainAccess (access : DomainUserPermissionCreateData)
    (domainFetch createDomainFetch : HttpOutcome DomainData)
    (postFetch : HttpOutcome DomainUserPermissionData) :
    Except ClientError DomainUserPermissionData × List ClientCall :=
  let (domRes, domCalls) := Client.GetDomain access.domain domainFetch
  let afterLookup : Except ClientError DomainData × List ClientCall :=
    match domRes with
    | .error .notFound =>
      match Client.CreateDomain { fqdn := access.domain, id := 0 }
          createDomainFetch with
      | (.error e, createCalls) =>
        (.error (.wrapped "failed to create domain" e), domCalls ++ createCalls)
      | (.ok d, createCalls) => (.ok d, domCalls ++ createCalls)
    | .error e => (.error (.wrapped "failed to get domain data" e), domCalls)
    | .ok d => (.ok d, domCalls)
  match afterLookup with
  | (.error e, calls) => (.error e, calls)
  | (.ok domainData, calls) =>
    let payload : DomainUserPermissionCreatePayloadData :=
      { userID := access.userID, domain := domainData.id,
        accessLevel := access.accessLevel }
    let calls := calls ++ [ClientCall.postDomainAccess payload]
    match postFetch with
    | .transportError m =>
      (.error (.wrapped "failed to execute request" (.message m)), calls)
    | .response status body =>
      match body with
      | .readFailure m =>
        (.error (.wrapped "failed to read response body" (.message m)), calls)
      | b =>
        if status < 200 || 400 ≤ status then
          (.error (.message ("failed to create domain access: status " ++
            toString status)), calls)
        else
          match b with
          | .jsonObject p => (.ok p, calls)
          | .jsonList _ =>
            (.error (.message "failed to parse domain access response: array body"),
             calls)
          | .undecodable raw =>
            (.error (.message ("failed to parse domain access response: " ++ raw)),
             calls)
          | .readFailure m =>
            (.error (.wrapped "failed to read response body" (.message m)), calls)

/-- `Client.DeleteDomainAccess` (client.go): DELETE the permission with the
given integer ID; the response (its status) is returned as-is, only transport
errors are errors. -/
def Client.DeleteDomainAccess (id : Int) (fetch : HttpOutcome Unit) :
    Except ClientError Nat × List ClientCall :=
  let calls := [ClientCall.deleteDomainAccess id]
  match fetch with
  | .transportError m =>
    (.error (.wrapped "failed to execute request" (.message m)), calls)
  | .response status _ => (.ok status, calls)

/-- Terraform diagnostics: `(summary, detail)` pairs, split by severity
(`AddError` / `AddWarning`). -/
structure Diags where
  errors : List (String × String)
  warnings : List (String × String)
deriving DecidableEq, Repr

/-- No diagnostics. -/
def Diags.empty : Diags := ⟨[], []⟩

/-- `AddError`. -/
def Diags.addError (d : Diags) (summary detail : String) : Diags :=
  { d with errors := d.errors ++ [(summary, detail)] }

/-- `AddWarning`. -/
def Diags.addWarning (d : Diags) (summary detail : String) : Diags :=
  { d with warnings := d.warnings ++ [(summary, detail)] }

/-- What happened to the stored Terraform state: untouched, removed
(`resp.State.RemoveResource`), or overwritten (`resp.State.Set`). -/
inductive StateOutcome (σ : Type) where
  | unchanged
  | removed
  | saved (s : σ)
deriving DecidableEq, Repr

/-- Result of one reconciler operation: diagnostics, the state outcome, and
the ordered remote calls issued. -/
structure OpResult (σ : Type) where
  diags : Diags
  state : StateOutcome σ
  calls : List ClientCall
deriving DecidableEq, Repr

/-- `UserModel` (user_resource.go); `none` models a null `types.String`. -/
structure UserModel where
  username : Option String
  password : Option String
  email : Option String
  id : Option String
deriving DecidableEq, Repr

/-- `UserDomainAccessModel` (user_domain_access_resource.go). -/
structure UserDomainAccessModel where
  userId : Option String
  domain : Option String
  accessLevel : Option String
  id : Option String
  databaseId : Option Int
deriving DecidableEq, Repr

/-- `UserResource.Create` (user_resource.go): reject when a user with the
planned username already exists (lookup succeeded), abort on any lookup error
other than `ErrNotFound` (pointer comparison `err != ErrNotFound`), otherwise
POST the user, read it back by username, and save state with the id taken
from the last segment of the returned URL. -/
def UserResource.Create (client : Option Client) (plan : UserModel)
    (lookupFetch createFetch readbackFetch : HttpOutcome UserData) :
    OpResult UserModel :=
  match client with
  | none =>
    ⟨Diags.empty.addError "Client Not Configured"
      "The LegoCharm API client is not configured for this resource",
     .unchanged, []⟩
  | some _ =>
    let uname := valueString plan.username
    match Client.GetUserByUsername uname lookupFetch with
    | (.ok existing, lookupCalls) =>
      ⟨Diags.empty.addError "User Exists"
        ("A user with username '" ++ uname ++ "' already exists (id=" ++
          LastPathSegment existing.url ++ ")."),
       .unchanged, lookupCalls⟩
    | (.error e, lookupCalls) =>
      if e ≠ .notFound then
        ⟨Diags.empty.addError "Client Error"
          "Unable to check for existing user", .unchanged, lookupCalls⟩
      else
        let create : UserCreateData :=
          { username := uname, password := valueString plan.password,
            email := valueString plan.email, groups := [] }
        match Client.CreateUser create createFetch with
        | (.error _, createCalls) =>
          ⟨Diags.empty.addError "Client Error" "Unable to create user",
           .unchanged, lookupCalls ++ createCalls⟩
        | (.ok _, createCalls) =>
          match Client.GetUserByUsername uname readbackFetch with
          | (.error _, readbackCalls) =>
            ⟨Diags.empty.addError "Client Error"
              "User created but failed to read back",
             .unchanged, lookupCalls ++ createCalls ++ readbackCalls⟩
          | (.ok user, readbackCalls) =>
            ⟨Diags.empty,
             .saved { plan with
               id := some (LastPathSegment user.url),
               email := some user.email,
               password := some (valueString plan.password) },
             lookupCalls ++ createCalls ++ readbackCalls⟩

/-- `UserResource.Read` (user_resource.go): look the user up by username
(both the id-set and id-null branches make the same call); exact
`err == ErrNotFound` removes the resource; other lookup errors add an error
diagnostic; on success refresh email and id, then probe the stored password
with `HasValidUserPassword`: a probe error adds an error diagnostic without
saving, an invalid password adds a warning and nulls the password, and the
refreshed state is saved. -/
def UserResource.Read (client : Option Client) (data : UserModel)
    (userFetch : HttpOutcome UserData) (env : TimeoutEnv)
    (probeFetch : HttpOutcome Unit) : OpResult UserModel :=
  match client with
  | none =>
    ⟨Diags.empty.addError "Client Not Configured"
      "The LegoCharm API client is not configured for this resource",
     .unchanged, []⟩
  | some c =>
    let uname := valueString data.username
    match Client.GetUserByUsername uname userFetch with
    | (.error e, lookupCalls) =>
      if e = .notFound then ⟨Diags.empty, .removed, lookupCalls⟩
      else
        ⟨Diags.empty.addError "Client Error" "Unable to read user",
         .unchanged, lookupCalls⟩
    | (.ok user, lookupCalls) =>
      let refreshed := { data with
        email := some user.email, id := some (LastPathSegment user.url) }
      match Client.HasValidUserPassword c uname (valueString data.password)
          env probeFetch with
      | (.error _, probeCalls) =>
        ⟨Diags.empty.addError "Client Error" "Unable to validate user password",
         .unchanged, lookupCalls ++ probeCalls⟩
      | (.ok valid, probeCalls) =>
        if valid then
          ⟨Diags.empty, .saved refreshed, lookupCalls ++ probeCalls⟩
        else
          ⟨Diags.empty.addWarning "Invalid Password"
            "The stored password is no longer valid",
           .saved { refreshed with password := none },
           lookupCalls ++ probeCalls⟩

/-- `UserResource.ImportState` (user_resource.go): the import ID must split
on `:` into exactly two parts, stored as username and password (all other
attributes stay null); any other part count yields an "Invalid Import ID"
error and no state. -/
def UserResource.ImportState (importId : String) :
    Diags × StateOutcome UserModel :=
  match splitString importId ':' with
  | [username, password] =>
    (Diags.empty,
     .saved { username := some username, password := some password,
              email := none, id := none })
  | _ =>
    (Diags.empty.addError "Invalid Import ID"
      "Import ID must be in the format 'username:password'", .unchanged)

/-- `UserDomainAccessResource.Create` (user_domain_access_resource.go):
reject when `GetDomainAccess` succeeds (grant already exists); otherwise
(on any lookup error) call `CreateDomainAccess` and save state with the
composite id `user_id:domain:access_level` and the created permission's
database ID. -/
def UserDomainAccessResource.Create (client : Option Client)
    (plan : UserDomainAccessModel)
    (userFetch : HttpOutcome UserData)
    (permFetch : HttpOutcome DomainUserPermissionData)
    (domainFetch createDomainFetch : HttpOutcome DomainData)
    (postFetch : HttpOutcome DomainUserPermissionData) :
    OpResult UserDomainAccessModel :=
  match client with
  | none =>
    ⟨Diags.empty.addError "Client Not Configured"
      "The LegoCharm API client is not configured for this resource",
     .unchanged, []⟩
  | some _ =>
    match Client.GetDomainAccess (valueString plan.userId)
        (valueString plan.domain) userFetch permFetch with
    | (.ok _, checkCalls) =>
      ⟨Diags.empty.addError "Domain Access Already Exists"
        "A domain access permission already exists for this user and domain combination.",
       .unchanged, checkCalls⟩
    | (.error _, checkCalls) =>
      let createData : DomainUserPermissionCreateData :=
        { userID := valueString plan.userId, domain := valueString plan.domain,
          accessLevel := valueString plan.accessLevel }
      match Client.CreateDomainAccess createData domainFetch createDomainFetch
          postFetch with
      | (.error _, createCalls) =>
        ⟨Diags.empty.addError "Client Error"
          "Unable to create user domain access",
         .unchanged, checkCalls ++ createCalls⟩
      | (.ok perm, createCalls) =>
        ⟨Diags.empty,
         .saved { plan with
           id := some (valueString plan.userId ++ ":" ++
             valueString plan.domain ++ ":" ++ valueString plan.accessLevel),
           databaseId := some perm.id },
         checkCalls ++ createCalls⟩

/-- `UserDomainAccessResource.Read` (user_domain_access_resource.go): null
user_id or domain is an "Invalid State" error; a lookup error matching
`ErrNotFound` via `errors.Is` removes the resource; any other lookup error
adds an error diagnostic; on success access level and database ID are
refreshed and state is saved. -/
def UserDomainAccessResource.Read (client : Option Client)
    (data : UserDomainAccessModel)
    (userFetch : HttpOutcome UserData)
    (permFetch : HttpOutcome DomainUserPermissionData) :
    OpResult UserDomainAccessModel :=
  match client with
  | none =>
    ⟨Diags.empty.addError "Client Not Configured"
      "The LegoCharm API client is not configured for this resource",
     .unchanged, []⟩
  | some _ =>
    if data.userId = none || data.domain = none then
      ⟨Diags.empty.addError "Invalid State"
        "User ID or Domain is null in state", .unchanged, []⟩
    else
      match Client.GetDomainAccess (valueString data.userId)
          (valueString data.domain) userFetch permFetch with
      | (.error e, lookupCalls) =>
        if e.isNotFound then ⟨Diags.empty, .removed, lookupCalls⟩
        else
          ⟨Diags.empty.addError "Client Error"
            "Unable to read user domain access", .unchanged, lookupCalls⟩
      | (.ok found, lookupCalls) =>
        ⟨Diags.empty,
         .saved { data with
           accessLevel := some found.accessLevel,
           databaseId := some found.id },
         lookupCalls⟩

/-- `UserDomainAccessResource.Update` (user_domain_access_resource.go): after
null checks on user_id/domain and on a null-or-zero database_id, DELETE the
permission with the stored database ID; if the delete call errors, stop with
an error diagnostic; otherwise recreate the grant from the planned values via
`CreateDomainAccess` and save state with the new database ID and the
composite id. -/
def UserDomainAccessResource.Update (client : Option Client)
    (plan : UserDomainAccessModel)
    (deleteFetch : HttpOutcome Unit)
    (domainFetch createDomainFetch : HttpOutcome DomainData)
    (postFetch : HttpOutcome DomainUserPermissionData) :
    OpResult UserDomainAccessModel :=
  match client with
  | none =>
    ⟨Diags.empty.addError "Client Not Configured"
      "The LegoCharm API client is not configured for this resource",
     .unchanged, []⟩
  | some _ =>
    if plan.userId = none || plan.domain = none then
      ⟨Diags.empty.addError "Invalid State"
        "User ID or Domain is null in state", .unchanged, []⟩
    else if plan.databaseId = none || valueInt plan.databaseId = 0 then
      ⟨Diags.empty.addError "Invalid State"
        "Database ID is null or zero in state", .unchanged, []⟩
    else
      match Client.DeleteDomainAccess (valueInt plan.databaseId) deleteFetch with
      | (.error _, deleteCalls) =>
        ⟨Diags.empty.addError "Client Error"
          "Unable to delete user domain access", .unchanged, deleteCalls⟩
      | (.ok _, deleteCalls) =>
        let createData : DomainUserPermissionCreateData :=
          { userID := valueString plan.userId, domain := valueString plan.domain,
            accessLevel := valueString plan.accessLevel }
        match Client.CreateDomainAccess createData domainFetch
            createDomainFetch postFetch with
        | (.error _, createCalls) =>
          ⟨Diags.empty.addError "Client Error"
            "Unable to update user domain access",
           .unchanged, deleteCalls ++ createCalls⟩
        | (.ok perm, createCalls) =>
          ⟨Diags.empty,
           .saved { plan with
             databaseId := some perm.id,
             id := some (valueString plan.userId ++ ":" ++
               valueString plan.domain ++ ":" ++
               valueString plan.accessLevel) },
           deleteCalls ++ createCalls⟩

/-- `UserDomainAccessResource.ImportState`
(user_domain_access_resource.go): the import ID must split on `:` into
exactly three parts, stored as user_id, domain and access_level, with `id`
set to the full import string; any other part count yields an
"Invalid Import ID" error and no state. -/
def UserDomainAccessResource.ImportState (importId : String) :
    Diags × StateOutcome UserDomainAccessModel :=
  match splitString importId ':' with
  | [userId, domain, accessLevel] =>
    (Diags.empty,
     .saved { userId := some userId, domain := some domain,
              accessLevel := some accessLevel, id := some importId,
              databaseId := none })
  | _ =>
    (Diags.empty.addError "Invalid Import ID"
      "Import ID must be in the format 'username:domain:access_level'",
     .unchanged)

theorem getUserById_snd (uid : String) (f : HttpOutcome UserData) :
    (Client.GetUserById uid f).snd = [.getUserById uid] := by
  cases f with
  | transportError m => rfl
  | response s b =>
    unfold Client.GetUserById
    by_cases hs : s = 404 <;> cases b <;> simp [hs]

theorem getDomain_snd (fq : String) (f : HttpOutcome DomainData) :
    (Client.GetDomain fq f).snd = [.getDomain fq] := by
  cases f with
  | transportError m => rfl
  | response s b =>
    unfold Client.GetDomain
    by_cases hs : s = 404 <;> cases b <;> simp [hs] <;> rename_i l <;> cases l <;> simp

theorem createDomain_snd (d : DomainData) (f : HttpOutcome DomainData) :
    (Client.CreateDomain d f).snd = [.createDomain d] := by
  cases f with
  | transportError m => rfl
  | response s b =>
    unfold Client.CreateDomain
    cases b <;> simp <;> split <;> simp

/-- C6: every lookup helper returns exactly `ErrNotFound` on HTTP 404; the
list-shaped lookups (`GetUserByUsername`, `GetDomain`, `GetDomainAccess`)
also return exactly `ErrNotFound` on an empty JSON array body; for all four
lookups a body that decodes as neither an array nor a single object yields a
parse-error message, not `ErrNotFound`. -/
theorem lookup_notFound_spec :
    (∀ (uid : String) (b : BodyDecode UserData),
      (Client.GetUserById uid (.response 404 b)).fst = .error .notFound) ∧
    (∀ (un : String) (b : BodyDecode UserData),
      (Client.GetUserByUsername un (.response 404 b)).fst = .error .notFound) ∧
    (∀ (fq : String) (b : BodyDecode DomainData),
      (Client.GetDomain fq (.response 404 b)).fst = .error .notFound) ∧
    (∀ (uid dom : String) (uf : HttpOutcome UserData) (u : UserData)
        (b : BodyDecode DomainUserPermissionData),
      (Client.GetUserById uid uf).fst = .ok u →
      (Client.GetDomainAccess uid dom uf (.response 404 b)).fst =
        .error .notFound) ∧
    (∀ (un : String) (s : Nat),
      (Client.GetUserByUsername un (.response s (.jsonList []))).fst =
        .error .notFound) ∧
    (∀ (fq : String) (s : Nat),
      (Client.GetDomain fq (.response s (.jsonList []))).fst =
        .error .notFound) ∧
    (∀ (uid dom : String) (uf : HttpOutcome UserData) (u : UserData) (s : Nat),
      (Client.GetUserById uid uf).fst = .ok u →
      (Client.GetDomainAccess uid dom uf (.response s (.jsonList []))).fst =
        .error .notFound) ∧
    (∀ (uid : String) (s : Nat) (raw : String), s ≠ 404 →
      (Client.GetUserById uid (.response s (.undecodable raw))).fst =
        .error (.message ("failed to parse user response: " ++ raw))) ∧
    (∀ (un : String) (s : Nat) (raw : String), s ≠ 404 →
      (Client.GetUserByUsername un (.response s (.undecodable raw))).fst =
        .error (.message ("failed to parse user response: " ++ raw))) ∧
    (∀ (fq : String) (s : Nat) (raw : String), s ≠ 404 →
      (Client.GetDomain fq (.response s (.undecodable raw))).fst =
        .error (.message ("failed to parse domain response: " ++ raw))) ∧
    (∀ (uid dom : String) (uf : HttpOutcome UserData) (u : UserData)
        (s : Nat) (raw : String),
      (Client.GetUserById uid uf).fst = .ok u → s ≠ 404 →
      (Client.GetDomainAccess uid dom uf (.response s (.undecodable raw))).fst =
        .error (.message ("failed to parse domain access response: " ++ raw))) := by
  refine ⟨?_, ?_, ?_, ?_, ?_, ?_, ?_, ?_, ?_, ?_, ?_⟩
  · intro uid b; simp [Client.GetUserById]
  · intro un b; simp [Client.GetUserByUsername]
  · intro fq b; simp [Client.GetDomain]
  · intro uid dom uf u b h
    unfold Client.GetDomainAccess
    rcases hu : Client.GetUserById uid uf with ⟨res, calls⟩
    rw [hu] at h
    simp at h
    subst h
    simp
  · intro un s
    unfold Client.GetUserByUsername
    by_cases hs : s = 404 <;> simp [hs]
  · intro fq s
    unfold Client.GetDomain
    by_cases hs : s = 404 <;> simp [hs]
  · intro uid dom uf u s h
    unfold Client.GetDomainAccess
    rcases hu : Client.GetUserById uid uf with ⟨res, calls⟩
    rw [hu] at h
    simp at h
    subst h
    by_cases hs : s = 404 <;> simp [hs]
  · intro uid s raw hs
    simp [Client.GetUserById, hs]
  · intro un s raw hs
    simp [Client.GetUserByUsername, hs]
  · intro fq s raw hs
    simp [Client.GetDomain, hs]
  · intro uid dom uf u s raw h hs
    unfold Client.GetDomainAccess
    rcases hu : Client.GetUserById uid uf with ⟨res, calls⟩
    rw [hu] at h
    simp at h
    subst h
    simp [hs]

/-- C6 witness -/
theorem lookup_notFound_spec_witness :
    (Client.GetDomainAccess "7" "example.com"
      (.response 200 (.jsonObject ⟨"alice", "https://h/api/v1/users/7/", "a@b", []⟩))
      (.response 404 (.jsonList []))).fst = .error .notFound ∧
    (Client.GetDomain "example.com" (.response 500 (.undecodable "oops"))).fst =
      .error (.message "failed to parse domain response: oops") ∧
    (Client.GetDomainAccess "7" "example.com"
      (.response 200 (.jsonObject ⟨"alice", "https://h/api/v1/users/7/", "a@b", []⟩))
      (.response 500 (.undecodable "oops"))).fst =
      .error (.message "failed to parse domain access response: oops") := by
  refine ⟨?_, ?_, ?_⟩
  · exact lookup_notFound_spec.2.2.2.1 "7" "example.com" _ _ _ (by rfl)
  · exact lookup_notFound_spec.2.2.2.2.2.2.2.2.2.1 "example.com" 500 "oops"
      (by decide)
  · exact lookup_notFound_spec.2.2.2.2.2.2.2.2.2.2 "7" "example.com" _
      ⟨"alice", "https://h/api/v1/users/7/", "a@b", []⟩ 500 "oops" (by rfl)
      (by decide)

/-- C1: `CreateDomainAccess` first looks the domain up by FQDN; a lookup
error other than `ErrNotFound` aborts with an error and no further calls; the
domain is created if and only if the lookup reports `ErrNotFound`; the
permission POST carries the ID of the found or newly created domain. -/
theorem createDomainAccess_ensures_parent_domain :
    ∀ (access : DomainUserPermissionCreateData)
      (df cf : HttpOutcome DomainData)
      (pf : HttpOutcome DomainUserPermissionData),
    ((Client.CreateDomainAccess access df cf pf).snd.head? =
      some (.getDomain access.domain)) ∧
    (∀ e, (Client.GetDomain access.domain df).fst = .error e → e ≠ .notFound →
      (Client.CreateDomainAccess access df cf pf).fst =
        .error (.wrapped "failed to get domain data" e) ∧
      (Client.CreateDomainAccess access df cf pf).snd =
        [.getDomain access.domain]) ∧
    ((Client.GetDomain access.domain df).fst = .error .notFound →
      (ClientCall.createDomain { fqdn := access.domain, id := 0 } ∈
        (Client.CreateDomainAccess access df cf pf).snd) ∧
      (∀ d, (Client.CreateDomain { fqdn := access.domain, id := 0 } cf).fst = .ok d →
        ClientCall.postDomainAccess ⟨access.userID, d.id, access.accessLevel⟩ ∈
          (Client.CreateDomainAccess access df cf pf).snd) ∧
      (∀ e, (Client.CreateDomain { fqdn := access.domain, id := 0 } cf).fst =
          .error e →
        (Client.CreateDomainAccess access df cf pf).fst =
          .error (.wrapped "failed to create domain" e) ∧
        ∀ p, ClientCall.postDomainAccess p ∉
          (Client.CreateDomainAccess access df cf pf).snd)) ∧
    (∀ d, (Client.GetDomain access.domain df).fst = .ok d →
      (∀ dd, ClientCall.createDomain dd ∉
        (Client.CreateDomainAccess access df cf pf).snd) ∧
      ClientCall.postDomainAccess ⟨access.userID, d.id, access.accessLevel⟩ ∈
        (Client.CreateDomainAccess access df cf pf).snd) := by
  intro access df cf pf
  have hdsnd := getDomain_snd access.domain df
  have hcsnd := createDomain_snd { fqdn := access.domain, id := 0 } cf
  rcases hd : Client.GetDomain access.domain df with ⟨domRes, domCalls⟩
  rw [hd] at hdsnd
  simp at hdsnd
  subst hdsnd
  refine ⟨?_, ?_, ?_, ?_⟩
  · unfold Client.CreateDomainAccess
    rw [hd]
    rcases domRes with e | d
    · rcases e with _ | ⟨ctx, inner⟩ | m
      · rcases hc : Client.CreateDomain { fqdn := access.domain, id := 0 } cf
          with ⟨createRes, createCalls⟩
        rcases createRes with e2 | d
        · simp [hc]
        · cases pf with
          | transportError m => simp [hc]
          | response s b => cases b <;> simp [hc] <;> split <;> simp
      · cases pf with
        | transportError m => simp
        | response s b => cases b <;> simp <;> split <;> simp
      · cases pf with
        | transportError m => simp
        | response s b => cases b <;> simp <;> split <;> simp
    · cases pf with
      | transportError m => simp
      | response s b => cases b <;> simp <;> split <;> simp
  · intro e he hne
    simp at he
    subst he
    unfold Client.CreateDomainAccess
    rw [hd]
    rcases e with _ | ⟨ctx, inner⟩ | m
    · exact absurd rfl hne
    · simp
    · simp
  · intro hnf
    simp at hnf
    subst hnf
    unfold Client.CreateDomainAccess
    rw [hd]
    rcases hc : Client.CreateDomain { fqdn := access.domain, id := 0 } cf
      with ⟨createRes, createCalls⟩
    rw [hc] at hcsnd
    simp at hcsnd
    subst hcsnd
    refine ⟨?_, ?_, ?_⟩
    · rcases createRes with e2 | d
      · simp
      · cases pf with
        | transportError m => simp
        | response s b => cases b <;> simp <;> split <;> simp
    · intro d hdok
      simp at hdok
      subst hdok
      cases pf with
      | transportError m => simp
      | response s b => cases b <;> simp <;> split <;> simp
    · intro e2 herr
      simp at herr
      subst herr
      simp
  · intro d hdok
    simp at hdok
    subst hdok
    unfold Client.CreateDomainAccess
    rw [hd]
    cases pf with
    | transportError m => simp
    | response s b => cases b <;> simp <;> split <;> simp

/-- C1 witness: a concrete run where the domain is missing, gets created, and
the POST carries the new domain's ID. -/
theorem createDomainAccess_ensures_parent_domain_witness :
    ClientCall.createDomain { fqdn := "example.com", id := 0 } ∈
      (Client.CreateDomainAccess ⟨"7", "example.com", "domain"⟩
        (.response 404 (.jsonList []))
        (.response 201 (.jsonObject ⟨"example.com", 99⟩))
        (.response 201 (.jsonObject ⟨7, 99, "domain", 555⟩))).snd ∧
    ClientCall.postDomainAccess ⟨"7", 99, "domain"⟩ ∈
      (Client.CreateDomainAccess ⟨"7", "example.com", "domain"⟩
        (.response 404 (.jsonList []))
        (.response 201 (.jsonObject ⟨"example.com", 99⟩))
        (.response 201 (.jsonObject ⟨7, 99, "domain", 555⟩))).snd := by
  have h := createDomainAccess_ensures_parent_domain ⟨"7", "example.com", "domain"⟩
    (.response 404 (.jsonList []))
    (.response 201 (.jsonObject ⟨"example.com", 99⟩))
    (.response 201 (.jsonObject ⟨7, 99, "domain", 555⟩))
  have hnf := h.2.2.1 (by rfl)
  exact ⟨hnf.1, hnf.2.1 ⟨"example.com", 99⟩ (by rfl)⟩

theorem dropWhile_head?_not (p : Char → Bool) (l : List Char) :
    ∀ a ∈ (l.dropWhile p).head?, p a = false := by
  induction l with
  | nil => intro a h; simp [List.dropWhile] at h
  | cons c t ih =>
    intro a h
    rw [List.dropWhile_cons] at h
    by_cases hc : p c = true
    · simp [hc] at h; exact ih a h
    · simp [hc] at h; simp [h] at hc; simpa [h] using hc

theorem trimRightSlash_getLast (s : String) :
    ∀ a ∈ (trimRightSlash s).data.getLast?, a ≠ '/' := by
  intro a ha
  unfold trimRightSlash at ha
  simp only [List.getLast?_reverse] at ha
  have := dropWhile_head?_not (fun c => c = '/') s.data.reverse a ha
  simpa using this

theorem trimLeftSlash_head (s : String) :
    ∀ a ∈ (trimLeftSlash s).data.head?, a ≠ '/' := by
  intro a ha
  unfold trimLeftSlash at ha
  have := dropWhile_head?_not (fun c => c = '/') s.data a ha
  simpa using this

theorem newClient_ok_shape (a u p : String) (env : TimeoutEnv) (c : Client)
    (h : NewClient (some a) (some u) (some p) env = .ok c) :
    c.Username = u ∧ c.Password = p ∧ ∃ s, c.BaseURL = trimRightSlash s := by
  unfold NewClient at h
  repeat' split at h
  all_goals simp_all
  all_goals (repeat' split at h)
  all_goals (try simp_all)
  all_goals (try subst h)
  all_goals exact ⟨rfl, rfl, _, rfl⟩

/-- C7: for a client built by `NewClient` (base URL stored with trailing
slashes removed), `NewRequest` joins the base URL and the slash-stripped path
with a single `/`, sets basic auth with the client's credentials, the
`terraform-provider-legocharm` user agent, and `application/json` as content
type exactly when a body is present. -/
theorem newRequest_spec :
    ∀ (addr u p : String) (env : TimeoutEnv) (c : Client),
      NewClient (some addr) (some u) (some p) env = .ok c →
      (∀ a ∈ c.BaseURL.data.getLast?, a ≠ '/') ∧
      ∀ (method path : String) (hasBody : Bool),
        (c.NewRequest method path hasBody).url =
          c.BaseURL ++ "/" ++ trimLeftSlash path ∧
        (∀ a ∈ (trimLeftSlash path).data.head?, a ≠ '/') ∧
        (c.NewRequest method path hasBody).authorization = .basic u p ∧
        (c.NewRequest method path hasBody).userAgent =
          "terraform-provider-legocharm" ∧
        (c.NewRequest method path hasBody).contentType =
          (if hasBody then some "application/json" else none) := by
  intro addr u p env c h
  obtain ⟨hun, hpw, s, hbase⟩ := newClient_ok_shape addr u p env c h
  refine ⟨by rw [hbase]; exact trimRightSlash_getLast s, ?_⟩
  intro method path hasBody
  exact ⟨rfl, trimLeftSlash_head path, by rw [Client.NewRequest, hun, hpw],
    rfl, rfl⟩

/-- C7 witness -/
theorem newRequest_spec_witness :
    ((⟨"https://example.com", "u", "p"⟩ : Client).NewRequest "GET"
      "/api/v1/users/" true).url =
      ("https://example.com" : String) ++ "/" ++
        trimLeftSlash "/api/v1/users/" ∧
    ((⟨"https://example.com", "u", "p"⟩ : Client).NewRequest "GET"
      "/api/v1/users/" true).authorization = .basic "u" "p" := by
  have h := (newRequest_spec "https://example.com/" "u" "p" .unset
    ⟨"https://example.com", "u", "p"⟩ (by rfl)).2 "GET" "/api/v1/users/" true
  exact ⟨h.1, h.2.2.1⟩

theorem newClient_empty_cred (a : Option String) (u p : String)
    (env : TimeoutEnv) (h : u = "" ∨ p = "") :
    ∃ e, NewClient a (some u) (some p) env = .error e := by
  unfold NewClient
  rcases a with _ | a
  · exact ⟨_, rfl⟩
  · by_cases ha : a = "" <;> rcases h with h | h <;> subst h <;> simp [ha]
    by_cases hu : u = "" <;> simp [hu]

/-- C2: `HasValidUserPassword` returns `(false, nil)` exactly on HTTP 401 and
`(true, nil)` exactly on HTTP 403; every other status yields an error; an
empty probed username or password fails the internal client construction and
yields an error. -/
theorem hasValidUserPassword_probe_spec :
    ∀ (c : Client) (u p : String) (env : TimeoutEnv),
    ((∃ cl, NewClient (some c.BaseURL) (some u) (some p) env = .ok cl) →
      ∀ (s : Nat) (b : BodyDecode Unit),
        ((Client.HasValidUserPassword c u p env (.response s b)).fst =
            .ok false ↔ s = 401) ∧
        ((Client.HasValidUserPassword c u p env (.response s b)).fst =
            .ok true ↔ s = 403) ∧
        (s ≠ 401 → s ≠ 403 →
          (Client.HasValidUserPassword c u p env (.response s b)).fst =
            .error (.message ("unexpected status code: " ++ toString s)))) ∧
    ((u = "" ∨ p = "") →
      ∀ f, ∃ e, (Client.HasValidUserPassword c u p env f).fst = .error e) := by
  intro c u p env
  constructor
  · rintro ⟨cl, hcl⟩ s b
    unfold Client.HasValidUserPassword
    rw [hcl]
    by_cases h1 : s = 401
    · subst h1; simp
    · by_cases h3 : s = 403
      · subst h3; simp
      · simp [h1, h3]
  · intro h f
    obtain ⟨e, he⟩ := newClient_empty_cred (some c.BaseURL) u p env h
    unfold Client.HasValidUserPassword
    rw [he]
    exact ⟨_, rfl⟩

/-- C2 witness -/
theorem hasValidUserPassword_probe_spec_witness :
    (Client.HasValidUserPassword ⟨"https://example.com", "admin", "pw"⟩
      "u" "p" .unset (.response 401 (.jsonObject ()))).fst = .ok false ∧
    ∃ e, (Client.HasValidUserPassword ⟨"https://example.com", "admin", "pw"⟩
      "u" "" .unset (.response 401 (.jsonObject ()))).fst = .error e := by
  constructor
  · exact ((hasValidUserPassword_probe_spec ⟨"https://example.com", "admin", "pw"⟩
      "u" "p" .unset).1 ⟨⟨"https://example.com", "u", "p"⟩, by rfl⟩ 401
      (.jsonObject ())).1.mpr rfl
  · exact (hasValidUserPassword_probe_spec ⟨"https://example.com", "admin", "pw"⟩
      "u" "" .unset).2 (Or.inr rfl) (.response 401 (.jsonObject ()))

theorem getUserByUsername_snd (un : String) (f : HttpOutcome UserData) :
    (Client.GetUserByUsername un f).snd = [.getUserByUsername un] := by
  cases f with
  | transportError m => rfl
  | response s b =>
    unfold Client.GetUserByUsername
    by_cases hs : s = 404 <;> cases b <;> simp [hs] <;> rename_i l <;> cases l <;> simp

theorem createUser_snd (u : UserCreateData) (f : HttpOutcome UserData) :
    (Client.CreateUser u f).snd = [.createUser u] := by
  cases f with
  | transportError m => rfl
  | response s b =>
    unfold Client.CreateUser
    cases b <;> simp <;> split <;> simp

theorem getUserByUsername_err_notFound (un : String) (f : HttpOutcome UserData)
    (e : ClientError) (h : (Client.GetUserByUsername un f).fst = .error e) :
    e.isNotFound = true ↔ e = .notFound := by
  cases f with
  | transportError m =>
    simp [Client.GetUserByUsername] at h
    subst h
    simp [ClientError.isNotFound]
  | response s b =>
    unfold Client.GetUserByUsername at h
    by_cases hs : s = 404 <;> simp [hs] at h
    · subst h; simp [ClientError.isNotFound]
    · cases b with
      | readFailure m => simp at h; subst h; simp [ClientError.isNotFound]
      | jsonList l =>
        cases l with
        | nil => simp at h; subst h; simp [ClientError.isNotFound]
        | cons x t => simp at h
      | jsonObject u => simp at h
      | undecodable raw => simp at h; subst h; simp [ClientError.isNotFound]

/-- C3: in both reconcilers' `Read`, a remote lookup error matching
`ErrNotFound` removes the resource from state without an error diagnostic,
and every other lookup error adds an error diagnostic and leaves the stored
state untouched. -/
theorem read_notFound_drops_state :
    (∀ (c : Client) (data : UserModel) (uf : HttpOutcome UserData)
       (env : TimeoutEnv) (probe : HttpOutcome Unit) (e : ClientError),
      (Client.GetUserByUsername (valueString data.username) uf).fst = .error e →
      (e.isNotFound = true →
        (UserResource.Read (some c) data uf env probe).state = .removed ∧
        (UserResource.Read (some c) data uf env probe).diags.errors = []) ∧
      (e.isNotFound = false →
        (UserResource.Read (some c) data uf env probe).state = .unchanged ∧
        (UserResource.Read (some c) data uf env probe).diags.errors ≠ [])) ∧
    (∀ (c : Client) (data : UserDomainAccessModel)
       (uf : HttpOutcome UserData) (pf : HttpOutcome DomainUserPermissionData)
       (e : ClientError),
      data.userId ≠ none → data.domain ≠ none →
      (Client.GetDomainAccess (valueString data.userId)
        (valueString data.domain) uf pf).fst = .error e →
      (e.isNotFound = true →
        (UserDomainAccessResource.Read (some c) data uf pf).state = .removed ∧
        (UserDomainAccessResource.Read (some c) data uf pf).diags.errors = []) ∧
      (e.isNotFound = false →
        (UserDomainAccessResource.Read (some c) data uf pf).state = .unchanged ∧
        (UserDomainAccessResource.Read (some c) data uf pf).diags.errors ≠ [])) := by
  constructor
  · intro c data uf env probe e h
    have hiff := getUserByUsername_err_notFound (valueString data.username) uf e h
    unfold UserResource.Read
    dsimp only
    rcases hu : Client.GetUserByUsername (valueString data.username) uf
      with ⟨res, calls⟩
    rw [hu] at h
    simp at h
    subst h
    by_cases he : e = .notFound
    · subst he
      constructor
      · intro _; simp [Diags.empty]
      · intro hfalse; rw [hiff.mpr rfl] at hfalse; cases hfalse
    · constructor
      · intro htrue; exact absurd (hiff.mp htrue) he
      · intro _; simp [he, Diags.addError, Diags.empty]
  · intro c data uf pf e h1 h2 h
    unfold UserDomainAccessResource.Read
    dsimp only
    rcases hg : Client.GetDomainAccess (valueString data.userId)
      (valueString data.domain) uf pf with ⟨res, calls⟩
    rw [hg] at h
    simp at h
    subst h
    simp only [h1, h2]
    by_cases he : e.isNotFound = true
    · constructor
      · intro _; simp [h1, h2, he, Diags.empty]
      · intro hfalse; rw [he] at hfalse; cases hfalse
    · simp only [Bool.not_eq_true] at he
      constructor
      · intro htrue; rw [he] at htrue; cases htrue
      · intro _; simp [h1, h2, he, Diags.addError, Diags.empty]

/-- C3 witness -/
theorem read_notFound_drops_state_witness :
    (UserResource.Read (some ⟨"https://h", "admin", "pw"⟩)
      ⟨some "alice", some "pw1", none, none⟩
      (.response 404 (.jsonList [])) .unset
      (.response 401 (.jsonObject ()))).state = .removed ∧
    (UserDomainAccessResource.Read (some ⟨"https://h", "admin", "pw"⟩)
      ⟨some "7", some "example.com", some "domain", none, some 5⟩
      (.response 404 (.jsonObject ⟨"alice", "u", "e", []⟩))
      (.response 200 (.jsonList []))).state = .removed := by
  constructor
  · exact ((read_notFound_drops_state.1 ⟨"https://h", "admin", "pw"⟩
      ⟨some "alice", some "pw1", none, none⟩
      (.response 404 (.jsonList [])) .unset
      (.response 401 (.jsonObject ())) .notFound (by rfl)).1 (by rfl)).1
  · exact ((read_notFound_drops_state.2 ⟨"https://h", "admin", "pw"⟩
      ⟨some "7", some "example.com", some "domain", none, some 5⟩
      (.response 404 (.jsonObject ⟨"alice", "u", "e", []⟩))
      (.response 200 (.jsonList []))
      (.wrapped "failed to get user data" .notFound)
      (by simp) (by simp) (by rfl)).1 (by rfl)).1

/-- C9: the user resource's `Create` refuses to create a user whose username
already exists remotely: a successful lookup yields a single "User Exists"
error with no create call and unchanged state; the create POST happens
exactly when the lookup returns `ErrNotFound`; any other lookup error also
aborts with an error, no create call, and unchanged state. -/
theorem userCreate_conflict_spec :
    ∀ (c : Client) (plan : UserModel) (lf cf rf : HttpOutcome UserData),
    (∀ u, (Client.GetUserByUsername (valueString plan.username) lf).fst = .ok u →
      (∃ d, (UserResource.Create (some c) plan lf cf rf).diags.errors = [d] ∧
        d.fst = "User Exists") ∧
      (∀ cu, ClientCall.createUser cu ∉
        (UserResource.Create (some c) plan lf cf rf).calls) ∧
      (UserResource.Create (some c) plan lf cf rf).state = .unchanged) ∧
    ((Client.GetUserByUsername (valueString plan.username) lf).fst =
        .error .notFound →
      ∃ cu, ClientCall.createUser cu ∈
        (UserResource.Create (some c) plan lf cf rf).calls) ∧
    (∀ e, (Client.GetUserByUsername (valueString plan.username) lf).fst =
        .error e → e ≠ .notFound →
      (UserResource.Create (some c) plan lf cf rf).diags.errors ≠ [] ∧
      (∀ cu, ClientCall.createUser cu ∉
        (UserResource.Create (some c) plan lf cf rf).calls) ∧
      (UserResource.Create (some c) plan lf cf rf).state = .unchanged) := by
  intro c plan lf cf rf
  have hlsnd := getUserByUsername_snd (valueString plan.username) lf
  rcases hl : Client.GetUserByUsername (valueString plan.username) lf
    with ⟨lres, lcalls⟩
  rw [hl] at hlsnd
  simp at hlsnd
  subst hlsnd
  refine ⟨?_, ?_, ?_⟩
  · intro u hu
    simp at hu
    subst hu
    unfold UserResource.Create
    dsimp only
    rw [hl]
    refine ⟨⟨("User Exists", "A user with username '" ++
      valueString plan.username ++ "' already exists (id=" ++
      LastPathSegment u.url ++ ")."), ?_, rfl⟩, by simp, by simp⟩
    simp [Diags.addError, Diags.empty]
  · intro hnf
    simp at hnf
    subst hnf
    unfold UserResource.Create
    dsimp only
    rw [hl]
    have hcsnd := createUser_snd
      ⟨valueString plan.username, valueString plan.password,
        valueString plan.email, []⟩ cf
    rcases hc : Client.CreateUser
      ⟨valueString plan.username, valueString plan.password,
        valueString plan.email, []⟩ cf with ⟨cres, ccalls⟩
    rw [hc] at hcsnd
    simp at hcsnd
    subst hcsnd
    rcases cres with e2 | cu
    · simp
    · rcases hr : Client.GetUserByUsername (valueString plan.username) rf
        with ⟨rres, rcalls⟩
      rcases rres with e3 | ru <;> simp
  · intro e he hne
    simp at he
    subst he
    unfold UserResource.Create
    dsimp only
    rw [hl]
    simp [hne, Diags.addError, Diags.empty]

/-- C9 witness -/
theorem userCreate_conflict_spec_witness :
    ∃ d, (UserResource.Create (some ⟨"https://h", "admin", "pw"⟩)
      ⟨some "alice", some "pw1", some "a@b", none⟩
      (.response 200 (.jsonList [⟨"alice", "https://h/api/v1/users/7/", "a@b", []⟩]))
      (.response 201 (.jsonObject ⟨"alice", "https://h/api/v1/users/7/", "a@b", []⟩))
      (.response 200 (.jsonList [⟨"alice", "https://h/api/v1/users/7/", "a@b", []⟩]))).diags.errors
        = [d] ∧ d.fst = "User Exists" := by
  exact ((userCreate_conflict_spec ⟨"https://h", "admin", "pw"⟩
    ⟨some "alice", some "pw1", some "a@b", none⟩
    (.response 200 (.jsonList [⟨"alice", "https://h/api/v1/users/7/", "a@b", []⟩]))
    (.response 201 (.jsonObject ⟨"alice", "https://h/api/v1/users/7/", "a@b", []⟩))
    (.response 200 (.jsonList [⟨"alice", "https://h/api/v1/users/7/", "a@b", []⟩]))).1
    ⟨"alice", "https://h/api/v1/users/7/", "a@b", []⟩ (by rfl)).1

/-- C10: when the user resource's `Read` finds the user but the password
probe reports the stored password invalid (`(false, nil)`), refreshed state
is still saved with the password nulled and the username unchanged, with a
warning and no error; when the probe itself errors, an error diagnostic is
added and no state is written. -/
theorem userRead_invalid_password_spec :
    ∀ (c : Client) (data : UserModel) (uf : HttpOutcome UserData)
      (env : TimeoutEnv) (probe : HttpOutcome Unit) (user : UserData),
    (Client.GetUserByUsername (valueString data.username) uf).fst = .ok user →
    (((Client.HasValidUserPassword c (valueString data.username)
        (valueString data.password) env probe).fst = .ok false →
      (UserResource.Read (some c) data uf env probe).state =
        .saved ⟨data.username, none, some user.email,
          some (LastPathSegment user.url)⟩ ∧
      (UserResource.Read (some c) data uf env probe).diags.errors = [] ∧
      (UserResource.Read (some c) data uf env probe).diags.warnings ≠ []) ∧
    (∀ e, (Client.HasValidUserPassword c (valueString data.username)
        (valueString data.password) env probe).fst = .error e →
      (UserResource.Read (some c) data uf env probe).diags.errors ≠ [] ∧
      (UserResource.Read (some c) data uf env probe).state = .unchanged)) := by
  intro c data uf env probe user h
  unfold UserResource.Read
  dsimp only
  rcases hu : Client.GetUserByUsername (valueString data.username) uf
    with ⟨res, calls⟩
  rw [hu] at h
  simp at h
  subst h
  rcases hp : Client.HasValidUserPassword c (valueString data.username)
    (valueString data.password) env probe with ⟨pres, pcalls⟩
  constructor
  · intro hfalse
    simp at hfalse
    subst hfalse
    simp [Diags.addWarning, Diags.empty]
  · intro e herr
    simp at herr
    subst herr
    simp [Diags.addError, Diags.empty]

/-- C10 witness -/
theorem userRead_invalid_password_spec_witness :
    (UserResource.Read (some ⟨"https://h", "admin", "pw"⟩)
      ⟨some "alice", some "old", none, some "7"⟩
      (.response 200 (.jsonList [⟨"alice", "https://h/api/v1/users/7/", "a@b", []⟩]))
      .unset (.response 401 (.jsonObject ()))).state =
      .saved ⟨some "alice", none, some "a@b", some "7"⟩ := by
  exact (((userRead_invalid_password_spec ⟨"https://h", "admin", "pw"⟩
    ⟨some "alice", some "old", none, some "7"⟩
    (.response 200 (.jsonList [⟨"alice", "https://h/api/v1/users/7/", "a@b", []⟩]))
    .unset (.response 401 (.jsonObject ()))
    ⟨"alice", "https://h/api/v1/users/7/", "a@b", []⟩ (by rfl)).1) (by rfl)).1

/-- C4: the user resource accepts exactly the import IDs splitting on `:`
into two parts (stored as username and password); the domain-access resource
accepts exactly those splitting into three parts (stored as user_id, domain
and access_level, with id the full string); any other part count produces an
"Invalid Import ID" error and writes no state. -/
theorem importState_spec :
    ∀ (s : String),
    (∀ u p, splitString s ':' = [u, p] →
      UserResource.ImportState s =
        (Diags.empty, .saved ⟨some u, some p, none, none⟩)) ∧
    ((splitString s ':').length ≠ 2 →
      (UserResource.ImportState s).fst.errors =
        [("Invalid Import ID",
          "Import ID must be in the format 'username:password'")] ∧
      (UserResource.ImportState s).snd = .unchanged) ∧
    (∀ a b c, splitString s ':' = [a, b, c] →
      UserDomainAccessResource.ImportState s =
        (Diags.empty, .saved ⟨some a, some b, some c, some s, none⟩)) ∧
    ((splitString s ':').length ≠ 3 →
      (UserDomainAccessResource.ImportState s).fst.errors =
        [("Invalid Import ID",
          "Import ID must be in the format 'username:domain:access_level'")] ∧
      (UserDomainAccessResource.ImportState s).snd = .unchanged) := by
  intro s
  refine ⟨?_, ?_, ?_, ?_⟩
  · intro u p h
    unfold UserResource.ImportState
    rw [h]
  · intro h
    unfold UserResource.ImportState
    rcases hs : splitString s ':' with _ | ⟨x, _ | ⟨y, _ | ⟨z, t⟩⟩⟩ <;>
      first
        | exact ⟨by simp [Diags.addError, Diags.empty], rfl⟩
        | (exfalso; rw [hs] at h; simp at h)
  · intro a b c h
    unfold UserDomainAccessResource.ImportState
    rw [h]
  · intro h
    unfold UserDomainAccessResource.ImportState
    rcases hs : splitString s ':' with _ | ⟨x, _ | ⟨y, _ | ⟨z, _ | ⟨w, t⟩⟩⟩⟩ <;>
      first
        | exact ⟨by simp [Diags.addError, Diags.empty], rfl⟩
        | (exfalso; rw [hs] at h; simp at h)

/-- C4 witness -/
theorem importState_spec_witness :
    UserResource.ImportState "alice:s3cret" =
      (Diags.empty, .saved ⟨some "alice", some "s3cret", none, none⟩) ∧
    UserDomainAccessResource.ImportState "7:example.com:domain" =
      (Diags.empty, .saved ⟨some "7", some "example.com", some "domain",
        some "7:example.com:domain", none⟩) ∧
    (UserResource.ImportState "alice").snd = .unchanged := by
  refine ⟨?_, ?_, ?_⟩
  · exact (importState_spec "alice:s3cret").1 "alice" "s3cret" (by rfl)
  · exact (importState_spec "7:example.com:domain").2.2.1 "7" "example.com"
      "domain" (by rfl)
  · exact ((importState_spec "alice").2.1 (by decide)).2

theorem deleteDomainAccess_snd (id : Int) (f : HttpOutcome Unit) :
    (Client.DeleteDomainAccess id f).snd = [.deleteDomainAccess id] := by
  cases f <;> rfl

/-- C5: the domain-access `Update` first deletes the permission with the
stored database_id; if that delete errors, no create is attempted and state
is unchanged; if it succeeds, a new grant is created from the planned values
and state is saved with the new database ID and the composite
`user_id:domain:access_level` id. -/
theorem update_replaces_grant :
    ∀ (c : Client) (plan : UserDomainAccessModel) (delf : HttpOutcome Unit)
      (df cdf : HttpOutcome DomainData)
      (pf : HttpOutcome DomainUserPermissionData),
    plan.userId ≠ none → plan.domain ≠ none →
    plan.databaseId ≠ none → valueInt plan.databaseId ≠ 0 →
    ((UserDomainAccessResource.Update (some c) plan delf df cdf pf).calls.head? =
      some (.deleteDomainAccess (valueInt plan.databaseId))) ∧
    (∀ e, (Client.DeleteDomainAccess (valueInt plan.databaseId) delf).fst =
        .error e →
      (UserDomainAccessResource.Update (some c) plan delf df cdf pf).state =
        .unchanged ∧
      (UserDomainAccessResource.Update (some c) plan delf df cdf pf).diags.errors
        ≠ [] ∧
      (UserDomainAccessResource.Update (some c) plan delf df cdf pf).calls =
        [.deleteDomainAccess (valueInt plan.databaseId)]) ∧
    (∀ st, (Client.DeleteDomainAccess (valueInt plan.databaseId) delf).fst =
        .ok st →
      (UserDomainAccessResource.Update (some c) plan delf df cdf pf).calls =
        .deleteDomainAccess (valueInt plan.databaseId) ::
          (Client.CreateDomainAccess ⟨valueString plan.userId,
            valueString plan.domain, valueString plan.accessLevel⟩
            df cdf pf).snd ∧
      ∀ perm, (Client.CreateDomainAccess ⟨valueString plan.userId,
          valueString plan.domain, valueString plan.accessLevel⟩
          df cdf pf).fst = .ok perm →
        (UserDomainAccessResource.Update (some c) plan delf df cdf pf).state =
          .saved ⟨plan.userId, plan.domain, plan.accessLevel,
            some (valueString plan.userId ++ ":" ++ valueString plan.domain ++
              ":" ++ valueString plan.accessLevel), some perm.id⟩) := by
  intro c plan delf df cdf pf h1 h2 h3 h4
  have hdsnd := deleteDomainAccess_snd (valueInt plan.databaseId) delf
  unfold UserDomainAccessResource.Update
  dsimp only
  simp only [h1, h2, h3, h4]
  rcases hdel : Client.DeleteDomainAccess (valueInt plan.databaseId) delf
    with ⟨dres, dcalls⟩
  rw [hdel] at hdsnd
  simp at hdsnd
  subst hdsnd
  rcases hcr : Client.CreateDomainAccess ⟨valueString plan.userId,
    valueString plan.domain, valueString plan.accessLevel⟩ df cdf pf
    with ⟨cres, ccalls⟩
  refine ⟨?_, ?_, ?_⟩
  · rcases dres with e | st
    · simp
    · rcases cres with e2 | perm <;> simp
  · intro e he
    simp at he
    subst he
    simp [Diags.addError, Diags.empty]
  · intro st hst
    simp at hst
    subst hst
    rcases cres with e2 | perm
    · constructor
      · simp
      · intro perm hperm; simp at hperm
    · constructor
      · simp
      · intro perm2 hperm
        simp at hperm
        subst hperm
        simp

/-- C5 witness -/
theorem update_replaces_grant_witness :
    (UserDomainAccessResource.Update (some ⟨"https://h", "admin", "pw"⟩)
      ⟨some "7", some "example.com", some "subdomain",
        some "7:example.com:domain", some 555⟩
      (.transportError "boom")
      (.response 200 (.jsonList [⟨"example.com", 42⟩]))
      (.response 201 (.jsonObject ⟨"example.com", 99⟩))
      (.response 201 (.jsonObject ⟨7, 42, "subdomain", 556⟩))).calls =
      [.deleteDomainAccess 555] := by
  exact ((update_replaces_grant ⟨"https://h", "admin", "pw"⟩
    ⟨some "7", some "example.com", some "subdomain",
      some "7:example.com:domain", some 555⟩
    (.transportError "boom")
    (.response 200 (.jsonList [⟨"example.com", 42⟩]))
    (.response 201 (.jsonObject ⟨"example.com", 99⟩))
    (.response 201 (.jsonObject ⟨7, 42, "subdomain", 556⟩))
    (by simp) (by simp) (by simp) (by decide)).2.1
    (.wrapped "failed to execute request" (.message "boom")) (by rfl)).2.2

theorem getDomainAccess_no_post (uid dom : String)
    (uf : HttpOutcome UserData) (pf : HttpOutcome DomainUserPermissionData)
    (q : DomainUserPermissionCreatePayloadData) :
    ClientCall.postDomainAccess q ∉ (Client.GetDomainAccess uid dom uf pf).snd := by
  unfold Client.GetDomainAccess
  have husnd := getUserById_snd uid uf
  rcases hu : Client.GetUserById uid uf with ⟨res, calls⟩
  rw [hu] at husnd
  simp at husnd
  subst husnd
  rcases res with e | u
  · simp
  · cases pf with
    | transportError m => simp
    | response s b =>
      by_cases hs : s = 404 <;> cases b <;> simp [hs] <;>
        rename_i l <;> cases l <;> simp

theorem createDomainAccess_post_level
    (access : DomainUserPermissionCreateData)
    (df cf : HttpOutcome DomainData)
    (pf : HttpOutcome DomainUserPermissionData)
    (q : DomainUserPermissionCreatePayloadData) :
    ClientCall.postDomainAccess q ∈
      (Client.CreateDomainAccess access df cf pf).snd →
    q.accessLevel = access.accessLevel := by
  unfold Client.CreateDomainAccess
  have hdsnd := getDomain_snd access.domain df
  have hcsnd := createDomain_snd { fqdn := access.domain, id := 0 } cf
  rcases hd : Client.GetDomain access.domain df with ⟨domRes, domCalls⟩
  rw [hd] at hdsnd
  simp at hdsnd
  subst hdsnd
  rcases domRes with e | d
  · rcases e with _ | ⟨cx, inner⟩ | m
    · rcases hc : Client.CreateDomain { fqdn := access.domain, id := 0 } cf
        with ⟨cres, ccalls⟩
      rw [hc] at hcsnd
      simp at hcsnd
      subst hcsnd
      rcases cres with e2 | d2
      · intro hmem; simp at hmem
      · cases pf with
        | transportError m => intro hmem; simp at hmem; subst hmem; rfl
        | response s b =>
          cases b <;> intro hmem <;>
            simp [apply_ite Prod.snd] at hmem <;> subst hmem <;> rfl
    · intro hmem; simp at hmem
    · intro hmem; simp at hmem
  · cases pf with
    | transportError m => intro hmem; simp at hmem; subst hmem; rfl
    | response s b =>
      cases b <;> intro hmem <;>
        simp [apply_ite Prod.snd] at hmem <;> subst hmem <;> rfl

/-- C8 counterexample: a Create whose planned access_level is
"invalid-level" (neither "domain" nor "subdomain") is not rejected: it
issues four remote calls including the permission POST carrying
"invalid-level", raises no error diagnostic, and stores the grant. -/
theorem accessLevel_not_validated_cex :
    (UserDomainAccessResource.Create
      (some ⟨"https://example.com", "admin", "pw"⟩)
      ⟨some "7", some "example.com", some "invalid-level", none, none⟩
      (.response 200 (.jsonObject
        ⟨"alice", "https://example.com/api/v1/users/7/", "a@b.c", []⟩))
      (.response 200 (.jsonList []))
      (.response 200 (.jsonList [⟨"example.com", 42⟩]))
      (.response 201 (.jsonObject ⟨"example.com", 99⟩))
      (.response 201 (.jsonObject ⟨7, 42, "invalid-level", 555⟩))).diags.errors
      = [] ∧
    ClientCall.postDomainAccess ⟨"7", 42, "invalid-level"⟩ ∈
      (UserDomainAccessResource.Create
        (some ⟨"https://example.com", "admin", "pw"⟩)
        ⟨some "7", some "example.com", some "invalid-level", none, none⟩
        (.response 200 (.jsonObject
          ⟨"alice", "https://example.com/api/v1/users/7/", "a@b.c", []⟩))
        (.response 200 (.jsonList []))
        (.response 200 (.jsonList [⟨"example.com", 42⟩]))
        (.response 201 (.jsonObject ⟨"example.com", 99⟩))
        (.response 201 (.jsonObject ⟨7, 42, "invalid-level", 555⟩))).calls ∧
    (UserDomainAccessResource.Create
      (some ⟨"https://example.com", "admin", "pw"⟩)
      ⟨some "7", some "example.com", some "invalid-level", none, none⟩
      (.response 200 (.jsonObject
        ⟨"alice", "https://example.com/api/v1/users/7/", "a@b.c", []⟩))
      (.response 200 (.jsonList []))
      (.response 200 (.jsonList [⟨"example.com", 42⟩]))
      (.response 201 (.jsonObject ⟨"example.com", 99⟩))
      (.response 201 (.jsonObject ⟨7, 42, "invalid-level", 555⟩))).state =
      .saved ⟨some "7", some "example.com", some "invalid-level",
        some "7:example.com:invalid-level", some 555⟩ := by
  refine ⟨rfl, ?_, rfl⟩
  decide

/-- C8 amended: the provider performs no local validation of access_level:
both Create and Update forward the planned access_level string verbatim in
any permission POST they issue, whatever its value (the "domain" /
"subdomain" vocabulary is only documentation in the schema). -/
theorem accessLevel_forwarded_verbatim :
    ∀ (client : Option Client) (plan : UserDomainAccessModel)
      (uf : HttpOutcome UserData)
      (pf : HttpOutcome DomainUserPermissionData)
      (df cdf : HttpOutcome DomainData)
      (postf : HttpOutcome DomainUserPermissionData)
      (delf : HttpOutcome Unit) (q : DomainUserPermissionCreatePayloadData),
    (ClientCall.postDomainAccess q ∈
        (UserDomainAccessResource.Create client plan uf pf df cdf postf).calls →
      q.accessLevel = valueString plan.accessLevel) ∧
    (ClientCall.postDomainAccess q ∈
        (UserDomainAccessResource.Update client plan delf df cdf postf).calls →
      q.accessLevel = valueString plan.accessLevel) := by
  intro client plan uf pf df cdf postf delf q
  constructor
  · cases client with
    | none => intro hmem; simp [UserDomainAccessResource.Create] at hmem
    | some c =>
      unfold UserDomainAccessResource.Create
      dsimp only
      have hnp := getDomainAccess_no_post (valueString plan.userId)
        (valueString plan.domain) uf pf q
      rcases hg : Client.GetDomainAccess (valueString plan.userId)
        (valueString plan.domain) uf pf with ⟨gres, gcalls⟩
      rw [hg] at hnp
      simp at hnp
      rcases gres with e | found
      · have hpl := createDomainAccess_post_level
          ⟨valueString plan.userId, valueString plan.domain,
            valueString plan.accessLevel⟩ df cdf postf q
        rcases hcr : Client.CreateDomainAccess
          ⟨valueString plan.userId, valueString plan.domain,
            valueString plan.accessLevel⟩ df cdf postf with ⟨cres, ccalls⟩
        rw [hcr] at hpl
        simp at hpl
        rcases cres with e2 | perm <;> intro hmem <;> simp at hmem <;>
          rcases hmem with hmem | hmem <;>
          first
            | exact absurd hmem hnp
            | exact hpl hmem
      · intro hmem
        simp at hmem
        exact absurd hmem hnp
  · cases client with
    | none => intro hmem; simp [UserDomainAccessResource.Update] at hmem
    | some c =>
      unfold UserDomainAccessResource.Update
      dsimp only
      by_cases h1 : plan.userId = none
      · intro hmem; simp [h1] at hmem
      · by_cases h2 : plan.domain = none
        · intro hmem; simp [h1, h2] at hmem
        · by_cases h3 : plan.databaseId = none
          · intro hmem; simp [h1, h2, h3] at hmem
          · by_cases h4 : valueInt plan.databaseId = 0
            · intro hmem; simp [h1, h2, h3, h4] at hmem
            · simp only [h1, h2, h3, h4]
              have hdsnd := deleteDomainAccess_snd
                (valueInt plan.databaseId) delf
              rcases hdel : Client.DeleteDomainAccess
                (valueInt plan.databaseId) delf with ⟨dres, dcalls⟩
              rw [hdel] at hdsnd
              simp at hdsnd
              subst hdsnd
              rcases dres with e | st
              · intro hmem; simp at hmem
              · have hpl := createDomainAccess_post_level
                  ⟨valueString plan.userId, valueString plan.domain,
                    valueString plan.accessLevel⟩ df cdf postf q
                rcases hcr : Client.CreateDomainAccess
                  ⟨valueString plan.userId, valueString plan.domain,
                    valueString plan.accessLevel⟩ df cdf postf
                  with ⟨cres, ccalls⟩
                rw [hcr] at hpl
                simp at hpl
                rcases cres with e2 | perm <;> intro hmem <;>
                  simp at hmem <;> exact hpl hmem

/-- C8 amended witness -/
theorem accessLevel_forwarded_verbatim_witness :
    (⟨"7", 42, "invalid-level"⟩ :
      DomainUserPermissionCreatePayloadData).accessLevel =
      valueString (some "invalid-level") := by
  exact (accessLevel_forwarded_verbatim
    (some ⟨"https://example.com", "admin", "pw"⟩)
    ⟨some "7", some "example.com", some "invalid-level", none, none⟩
    (.response 200 (.jsonObject
      ⟨"alice", "https://example.com/api/v1/users/7/", "a@b.c", []⟩))
    (.response 200 (.jsonList []))
    (.response 200 (.jsonList [⟨"example.com", 42⟩]))
    (.response 201 (.jsonObject ⟨"example.com", 99⟩))
    (.response 201 (.jsonObject ⟨7, 42, "invalid-level", 555⟩))
    (.response 204 (.jsonList []))
    ⟨"7", 42, "invalid-level"⟩).1 (by decide)

end Legocharm
